import Mathlib

/-!
Verification of the `escpos` package's SOAP envelope extraction
(`src/util.go`) and, where the repository ships only tests and callers for a
component, a model of that component built from the specification.

The Go code consumes raw bytes through `encoding/xml.Unmarshal`, which is
part of the Go standard library, not of this repository.  We therefore embed
the input at the level the repository's own code observes it: either the
bytes fail to parse as XML at all (`RawInput.malformed`), or they parse to a
document tree (`RawInput.doc`).  The unmarshalling steps performed by
`getBodyChildren` (matching the root element name, collecting the Body
child's inner XML, re-parsing it wrapped in `<root>…</root>`, and decoding
each child element into a `Node`) are translated from `src/util.go`
together with the documented semantics of the struct tags it uses.
-/

namespace Escpos

/-- XML qualified name, mirroring Go's `xml.Name` (namespace and local part). -/
structure XmlName where
  Space : String
  Local : String
deriving Repr, DecidableEq

/-- XML attribute, mirroring Go's `xml.Attr`. -/
structure XmlAttr where
  Name : XmlName
  Value : String
deriving Repr, DecidableEq

/-- One item of XML element content: a child element, character data, or a
comment.  This is the tree the standard library parser hands to the
repository's code. -/
inductive XmlContent where
  | elem (name : XmlName) (attrs : List XmlAttr) (children : List XmlContent)
  | text (s : String)
  | comment (s : String)
deriving Repr

/-- Whether a content item is a child element. -/
def XmlContent.isElem : XmlContent → Bool
  | .elem _ _ _ => true
  | _ => false

/-- Local name of a content item when it is an element (default otherwise). -/
def XmlContent.nameOf : XmlContent → XmlName
  | .elem n _ _ => n
  | _ => ⟨"", ""⟩

/-- Attribute list of a content item when it is an element. -/
def XmlContent.attrsOf : XmlContent → List XmlAttr
  | .elem _ a _ => a
  | _ => []

/-- Children of a content item when it is an element. -/
def XmlContent.childrenOf : XmlContent → List XmlContent
  | .elem _ _ ch => ch
  | _ => []

/-- Parsed XML node from `src/util.go` lines 14–19: `XMLName xml.Name`,
`Attrs []xml.Attr` (tag `,any,attr`), `Content string` (tag `,chardata`),
`Nodes []Node` (tag `,any`). -/
structure Node where
  XMLName : XmlName
  Attrs : List XmlAttr
  Content : String
  Nodes : List Node
deriving Repr

/-- Concatenation of the character data appearing directly in an element's
content, as accumulated by a `,chardata` struct field: child elements are
consumed whole by the `,any` field, so only direct text contributes. -/
def directText : List XmlContent → String
  | [] => ""
  | .text s :: rest => s ++ directText rest
  | .elem _ _ _ :: rest => directText rest
  | .comment _ :: rest => directText rest

mutual
/-- Decoding of one content item into a `Node`, following the struct tags of
`Node` in `src/util.go`: an element yields its name, its attributes in
order, its direct character data, and its child elements decoded
recursively; text and comments yield no node. -/
def decodeNode : XmlContent → Option Node
  | .elem name attrs children =>
      some { XMLName := name, Attrs := attrs,
             Content := directText children,
             Nodes := decodeNodes children }
  | .text _ => none
  | .comment _ => none

/-- Decoding of a content list: one `Node` per child element, in document
order, mirroring unmarshalling into a `[]Node` field tagged `,any`. -/
def decodeNodes : List XmlContent → List Node
  | [] => []
  | c :: rest =>
      match decodeNode c with
      | some n => n :: decodeNodes rest
      | none => decodeNodes rest
end

/-- Serialized form of a qualified name as it appears in the raw input
(prefix and colon when a prefix is present). -/
def qualName (n : XmlName) : String :=
  if n.Space = "" then n.Local else n.Space ++ ":" ++ n.Local

/-- Serialized form of an attribute list. -/
def serializeAttrs : List XmlAttr → String
  | [] => ""
  | a :: rest => " " ++ qualName a.Name ++ "=\"" ++ a.Value ++ "\"" ++ serializeAttrs rest

mutual
/-- Serialized form of one content item: the `,innerxml` struct tag stores
the raw XML text of an element's content, which this reconstructs from the
tree. -/
def serializeItem : XmlContent → String
  | .elem name attrs children =>
      "<" ++ qualName name ++ serializeAttrs attrs ++ ">"
        ++ serializeList children ++ "</" ++ qualName name ++ ">"
  | .text s => s
  | .comment s => "<!--" ++ s ++ "-->"

/-- Serialized form of a content list, concatenated in order. -/
def serializeList : List XmlContent → String
  | [] => ""
  | c :: rest => serializeItem c ++ serializeList rest
end

/-- Errors `getBodyChildren` can return: an `xml.Unmarshal` failure on bytes
that are not well-formed XML, an `xml.Unmarshal` failure because the root
element is not named `Envelope` (Go: `expected element type <Envelope> but
have <…>`), or the package's own `ErrBodyElementEmpty`. -/
inductive GoXmlError where
  | syntaxError
  | expectedEnvelope (found : String)
  | bodyElementEmpty
deriving Repr, DecidableEq

/-- Whether an error originates from the XML unmarshalling layer — the class
the specification calls `MalformedDocument` — as opposed to the package's
`ErrBodyElementEmpty`. -/
def GoXmlError.isMalformedDocument : GoXmlError → Bool
  | .syntaxError => true
  | .expectedEnvelope _ => true
  | .bodyElementEmpty => false

/-- Input bytes as the repository's code observes them through the standard
library parser: either not well-formed XML, or a document with the given
root element. -/
inductive RawInput where
  | malformed
  | doc (rootName : XmlName) (rootAttrs : List XmlAttr) (rootChildren : List XmlContent)

/-- Content of the `Body` field after unmarshalling the `Envelope` struct of
`src/util.go` lines 36–44: each child element whose local name is `Body` is
unmarshalled into the field in turn, so the field ends up holding the last
such child's inner XML; when no `Body` child exists the field keeps its zero
value (empty content). -/
def bodyContentOf (children : List XmlContent) : Option (List XmlContent) :=
  children.foldl
    (fun acc c =>
      match c with
      | .elem n _ ch => if n.Local = "Body" then some ch else acc
      | _ => acc)
    none

/-- Translation of `getBodyChildren` (`src/util.go` lines 47–74): unmarshal
the input into the `Envelope` struct (failing on malformed bytes or a root
element not named `Envelope`); return `ErrBodyElementEmpty` when the saved
inner XML of the Body is empty; otherwise re-parse the inner XML wrapped in
`<root>…</root>` into a `[]Node` (which at tree level recovers the Body's
child elements) and return `ErrBodyElementEmpty` when no node results. -/
def getBodyChildren : RawInput → Except GoXmlError (List Node)
  | .malformed => .error .syntaxError
  | .doc rootName _rootAttrs rootChildren =>
      if rootName.Local ≠ "Envelope" then
        .error (.expectedEnvelope rootName.Local)
      else
        let content := (bodyContentOf rootChildren).getD []
        if (serializeList content).length = 0 then
          .error .bodyElementEmpty
        else
          let nodes := decodeNodes content
          if nodes.length = 0 then
            .error .bodyElementEmpty
          else
            .ok nodes

/-- Node obtained from decoding a content item known to be an element;
agrees with `decodeNode` on elements (see `decodeNode_eq_decodeElem`). -/
def decodeElem (c : XmlContent) : Node :=
  { XMLName := c.nameOf, Attrs := c.attrsOf,
    Content := directText c.childrenOf,
    Nodes := decodeNodes c.childrenOf }

/-- Go method `Name` (`src/util.go` lines 22–24): the local name of the
node. -/
def Node.Name (n : Node) : String := n.XMLName.Local

/-- Go method `Attributes` (`src/util.go` lines 27–33): build a map by
assigning `attrs[attr.Name.Local] = attr.Value` for each attribute in
order.  The map is embedded as its lookup function. -/
def Node.Attributes (n : Node) : String → Option String :=
  n.Attrs.foldl
    (fun m attr k => if k = attr.Name.Local then some attr.Value else m k)
    (fun _ => none)

/-!
The Command Encoder, Printer State Machine, Image Rasterizer and Job
Transaction Adapter of this repository are exercised by its tests (the
server test file drives `NewServer`/`ServeHTTP` against a mock writer) but
their source files are not present; the definitions below are built from
the specification.
-/

/-- Modelled from the spec: the element-stage, recoverable error taxonomy
(`UnsupportedElement`, `InvalidParameter`, `ImageDecodeError`,
`ImageTooLarge`) of §7; the encoder, state-machine and rasterizer sources
are missing from the repository snapshot. -/
inductive ElemError where
  | unsupportedElement (name : String)
  | invalidParameter
  | imageDecodeError
  | imageTooLarge
deriving Repr, DecidableEq

/-- Modelled from the spec: printer font selection (A/B/C). -/
inductive Font where
  | A
  | B
  | C
deriving Repr, DecidableEq

/-- Modelled from the spec: text justification. -/
inductive Alignment where
  | left
  | center
  | right
deriving Repr, DecidableEq

/-- Modelled from the spec: the mutable formatting state of §3
(`PrinterState`); the state-machine source is missing from the snapshot. -/
structure PrinterState where
  font : Font
  widthScale : Nat
  heightScale : Nat
  alignment : Alignment
  emphasize : Bool
  underline : Bool
  reverse : Bool
  smooth : Bool
deriving Repr, DecidableEq

/-- Modelled from the spec: the hardware reset state, the per-job starting
point (§3 invariant). -/
def defaultState : PrinterState :=
  { font := .A, widthScale := 1, heightScale := 1, alignment := .left,
    emphasize := false, underline := false, reverse := false, smooth := false }

/-- Modelled from the spec: the byte-exact init constant `ESC @`
(0x1B 0x40) of §6. -/
def initBytes : List Nat := [0x1B, 0x40]

/-- Modelled from the spec: the byte-exact end-of-job marker 0xFA of §6. -/
def endMarker : Nat := 0xFA

/-- Modelled from the spec: the character-size encoder's single size byte,
`((width-1)<<4) | (height-1)` for scales in 1..8, `InvalidParameter`
outside that range, never clamping (§4.2); the encoder source is missing
from the snapshot. -/
def sizeByte (width height : Nat) : Except ElemError Nat :=
  if 1 ≤ width ∧ width ≤ 8 ∧ 1 ≤ height ∧ height ≤ 8 then
    .ok (((width - 1) <<< 4) ||| (height - 1))
  else
    .error .invalidParameter

/-- Modelled from the spec: the set-character-size command, `GS !` followed
by the size byte. -/
def setFontSize (width height : Nat) : Except ElemError (List Nat) := do
  let b ← sizeByte width height
  pure [0x1D, 0x21, b]

/-- Modelled from the spec: one horizontal feed command. -/
def feedBytes : List Nat := [0x0A]

/-- Modelled from the spec: the cut command. -/
def cutBytes : List Nat := [0x1D, 0x56, 0x00]

/-- Modelled from the spec: the cash-drawer pulse command with default
drawer pin and timing. -/
def pulseBytes : List Nat := [0x1B, 0x70, 0x00, 0x32, 0x32]

/-- Modelled from the spec: justification command argument. -/
def alignCode : Alignment → Nat
  | .left => 0
  | .center => 1
  | .right => 2

/-- Modelled from the spec: the set-justification command. -/
def setAlign (a : Alignment) : List Nat := [0x1B, 0x61, alignCode a]

/-- Modelled from the spec: the set-emphasis command. -/
def setEmphasize (b : Bool) : List Nat := [0x1B, 0x45, if b then 1 else 0]

/-- Modelled from the spec: the set-font command. -/
def setFont (f : Font) : List Nat :=
  [0x1B, 0x4D, match f with | .A => 0 | .B => 1 | .C => 2]

/-- Modelled from the spec: text content emitted as raw character bytes
(code-page concerns are delegated to the transport). -/
def textBytes (s : String) : List Nat := s.toList.map Char.toNat

/-- Modelled from the spec: the device's maximum raster width in pixels
(§4.4); exceeding it fails with `ImageTooLarge`. -/
def maxRasterWidth : Nat := 512

/-- Character set of base64 text, padding included. -/
def isBase64Char (c : Char) : Bool :=
  c.isAlphanum || c = '+' || c = '/' || c = '='

/-- Modelled from the spec: base64 decoding of an `image` element's
content, abstracted to the claim-relevant behavior — text that is not
base64-shaped fails to decode; otherwise it yields the bitmap container
bytes. -/
def base64Decode? (s : String) : Option (List Nat) :=
  if s.length % 4 = 0 ∧ 0 < s.length ∧ s.toList.all isBase64Char then
    some (s.toList.map Char.toNat)
  else
    none

/-- Modelled from the spec: the Image Rasterizer of §4.4, abstracted to the
claim-relevant behavior — a zero declared dimension fails with
`ImageDecodeError`, a width beyond the device maximum fails with
`ImageTooLarge` (never cropping), and otherwise the raster command is the
bit-image header followed by `ceil(width/8) * height` packed bytes. -/
def rasterize (bits : List Nat) (width height : Nat) : Except ElemError (List Nat) :=
  if width = 0 ∨ height = 0 then
    .error .imageDecodeError
  else if maxRasterWidth < width then
    .error .imageTooLarge
  else
    let bytesPerRow := (width + 7) / 8
    let needed := bytesPerRow * height
    let packed := (bits ++ List.replicate needed 0).take needed
    .ok ([0x1D, 0x76, 0x30, 0x00,
          bytesPerRow % 256, bytesPerRow / 256,
          height % 256, height / 256] ++ packed)

/-- Modelled from the spec: parsing of a boolean attribute value. -/
def parseBool (v : String) : Except ElemError Bool :=
  if v = "true" ∨ v = "1" then .ok true
  else if v = "false" ∨ v = "0" then .ok false
  else .error .invalidParameter

/-- Modelled from the spec: parsing of an alignment attribute value. -/
def parseAlign (v : String) : Except ElemError Alignment :=
  if v = "left" then .ok .left
  else if v = "center" then .ok .center
  else if v = "right" then .ok .right
  else .error .invalidParameter

/-- Modelled from the spec: parsing of a font attribute value. -/
def parseFont (v : String) : Except ElemError Font :=
  if v = "font_a" ∨ v = "a" then .ok .A
  else if v = "font_b" ∨ v = "b" then .ok .B
  else if v = "font_c" ∨ v = "c" then .ok .C
  else .error .invalidParameter

/-- Modelled from the spec: parsing of a required numeric attribute. -/
def parseNatAttr (v : Option String) : Except ElemError Nat :=
  match v with
  | none => .error .invalidParameter
  | some s =>
      match s.toNat? with
      | some k => .ok k
      | none => .error .invalidParameter

/-- Modelled from the spec: handling of a `text` element's `align`
attribute — emit the justification command only when the requested value
differs from the current state (§4.3). -/
def applyAlign (s : PrinterState) (v : Option String) :
    Except ElemError (PrinterState × List Nat) :=
  match v with
  | none => .ok (s, [])
  | some str => do
      let a ← parseAlign str
      if a = s.alignment then pure (s, [])
      else pure ({ s with alignment := a }, setAlign a)

/-- Modelled from the spec: handling of a `text` element's `em`
attribute. -/
def applyEm (s : PrinterState) (v : Option String) :
    Except ElemError (PrinterState × List Nat) :=
  match v with
  | none => .ok (s, [])
  | some str => do
      let b ← parseBool str
      if b = s.emphasize then pure (s, [])
      else pure ({ s with emphasize := b }, setEmphasize b)

/-- Modelled from the spec: handling of a `text` element's `dw`/`dh`
double-width/double-height attributes, mapped to character scales. -/
def applyScale (s : PrinterState) (dw dh : Option String) :
    Except ElemError (PrinterState × List Nat) := do
  let w ← match dw with
    | none => pure s.widthScale
    | some v => do
        let b ← parseBool v
        pure (if b then 2 else 1)
  let h ← match dh with
    | none => pure s.heightScale
    | some v => do
        let b ← parseBool v
        pure (if b then 2 else 1)
  if w = s.widthScale ∧ h = s.heightScale then
    pure (s, [])
  else do
    let bytes ← setFontSize w h
    pure ({ s with widthScale := w, heightScale := h }, bytes)

/-- Modelled from the spec: handling of a `text` element's `font`
attribute. -/
def applyFont (s : PrinterState) (v : Option String) :
    Except ElemError (PrinterState × List Nat) :=
  match v with
  | none => .ok (s, [])
  | some str => do
      let f ← parseFont str
      if f = s.font then pure (s, [])
      else pure ({ s with font := f }, setFont f)

/-- Modelled from the spec: the Printer State Machine's dispatch of §4.3 —
`apply(currentState, element) → (newState, bytes)`, with unknown element
names failing with `UnsupportedElement`; the state-machine source is
missing from the snapshot. -/
def applyElement (s : PrinterState) (n : Node) :
    Except ElemError (PrinterState × List Nat) :=
  if n.Name = "text" then do
    let (s1, b1) ← applyAlign s (n.Attributes "align")
    let (s2, b2) ← applyEm s1 (n.Attributes "em")
    let (s3, b3) ← applyScale s2 (n.Attributes "dw") (n.Attributes "dh")
    let (s4, b4) ← applyFont s3 (n.Attributes "font")
    pure (s4, b1 ++ b2 ++ b3 ++ b4 ++ textBytes n.Content)
  else if n.Name = "feed" then do
    let lines ← match n.Attributes "line" with
      | none => pure 1
      | some v =>
          match v.toNat? with
          | some k => pure k
          | none => Except.error ElemError.invalidParameter
    pure (s, (List.replicate lines feedBytes).flatten)
  else if n.Name = "cut" then
    if n.Attributes "type" = some "feed" then
      .ok (s, feedBytes ++ cutBytes)
    else
      .ok (s, cutBytes)
  else if n.Name = "pulse" then
    .ok (s, pulseBytes)
  else if n.Name = "image" then do
    let w ← parseNatAttr (n.Attributes "width")
    let h ← parseNatAttr (n.Attributes "height")
    match base64Decode? n.Content with
    | none => Except.error ElemError.imageDecodeError
    | some bits => do
        let raster ← rasterize bits w h
        pure (s, raster)
  else
    .error (.unsupportedElement n.Name)

/-- Modelled from the spec: the result-collecting fold of §4.5/§9 — each
element is applied in order; an element that fails with an element-stage
error is skipped (its bytes omitted, state unchanged) and processing
continues with the next element, recording the error. -/
def processElements : PrinterState → List Node → PrinterState × List Nat × List ElemError
  | s, [] => (s, [], [])
  | s, n :: rest =>
      match applyElement s n with
      | .error e =>
          let (s', b, errs) := processElements s rest
          (s', b, e :: errs)
      | .ok (s1, bytes) =>
          let (s', b, errs) := processElements s1 rest
          (s', bytes ++ b, errs)

/-- Modelled from the spec: the SOAP response the adapter builds —
HTTP status, success flag, and response body text (§6). -/
structure SoapResponse where
  status : Nat
  success : Bool
  body : String
deriving Repr, DecidableEq

/-- Modelled from the spec: the Job Transaction Adapter of §4.5
(`process(requestBytes, deviceConnection) → SOAPResponse`); the server
source is missing from the snapshot.  On extraction failure nothing is
written to the device and an HTTP 400 SOAP fault whose fault string
includes "cannot parse XML" is returned; on success the written stream is
the init command, the fold of the state machine over the elements, and the
end-of-job marker, with a success response. -/
def process (inp : RawInput) : List Nat × SoapResponse :=
  match getBodyChildren inp with
  | .error _ =>
      ([], { status := 400, success := false,
             body := "cannot parse XML" ++ ": malformed body" })
  | .ok nodes =>
      let (_, bytes, _) := processElements defaultState nodes
      (initBytes ++ bytes ++ [endMarker],
       { status := 200, success := true,
         body := "response success=\"true\"" })

/-- Body content of the simple fixture from the repository's test corpus:
whitespace, a `text` element, whitespace. -/
def sampleBodyContent : List XmlContent :=
  [ XmlContent.text "\n    ",
    XmlContent.elem ⟨"", "text"⟩ [⟨⟨"", "align"⟩, "center"⟩]
      [XmlContent.text "Hello World"],
    XmlContent.text "\n  " ]

/-- The simple fixture envelope: an `s:Envelope` whose `s:Body` holds
`sampleBodyContent`. -/
def sampleEnvelope : RawInput :=
  .doc ⟨"s", "Envelope"⟩ [⟨⟨"xmlns", "s"⟩, "http://schemas.xmlsoap.org/soap/envelope/"⟩]
    [ XmlContent.text "\n  ",
      XmlContent.elem ⟨"s", "Body"⟩ [] sampleBodyContent,
      XmlContent.text "\n" ]

/-- Node with a tag name outside the dispatch table, for exercising the
`UnsupportedElement` path. -/
def unknownNode : Node := { XMLName := ⟨"", "barcode"⟩, Attrs := [], Content := "", Nodes := [] }

/-- Node for a bare `pulse` element. -/
def pulseNode : Node := { XMLName := ⟨"", "pulse"⟩, Attrs := [], Content := "", Nodes := [] }

/-- Decoding a content list yields exactly the decoded child elements, in
document order. -/
lemma decodeNodes_eq_filter (l : List XmlContent) :
    decodeNodes l = (l.filter XmlContent.isElem).map decodeElem := by
  induction l with
  | nil => rfl
  | cons c rest ih =>
    cases c with
    | elem n a ch =>
        simp [decodeNodes, decodeNode, List.filter, XmlContent.isElem, decodeElem,
          XmlContent.nameOf, XmlContent.attrsOf, XmlContent.childrenOf, ih]
    | text s => simp [decodeNodes, decodeNode, List.filter, XmlContent.isElem, ih]
    | comment s => simp [decodeNodes, decodeNode, List.filter, XmlContent.isElem, ih]

/-- A serialized element is never the empty string (it starts with `<`). -/
lemma serializeItem_length_pos (c : XmlContent) (h : c.isElem = true) :
    0 < (serializeItem c).length := by
  cases c with
  | elem n a ch =>
      have he : serializeItem (.elem n a ch)
          = "<" ++ qualName n ++ serializeAttrs a ++ ">"
            ++ serializeList ch ++ "</" ++ qualName n ++ ">" := rfl
      rw [he]
      simp only [String.length_append]
      have h1 : ("<" : String).length = 1 := rfl
      omega
  | text s => simp [XmlContent.isElem] at h
  | comment s => simp [XmlContent.isElem] at h

/-- Serialized content containing a child element is never the empty
string. -/
lemma serializeList_length_pos (l : List XmlContent) (c : XmlContent)
    (hc : c ∈ l) (he : c.isElem = true) :
    0 < (serializeList l).length := by
  induction l with
  | nil => cases hc
  | cons d rest ih =>
    have hsl : serializeList (d :: rest) = serializeItem d ++ serializeList rest := rfl
    rw [hsl, String.length_append]
    rcases List.mem_cons.mp hc with h1 | h2
    · subst h1
      have := serializeItem_length_pos c he
      omega
    · have := ih h2
      omega

/-- Looking up a key after the `Attributes` fold returns the value of the
last attribute with that local name, falling back to the starting map. -/
lemma attributes_foldl_lookup (l : List XmlAttr) (m : String → Option String) (k : String) :
    (l.foldl (fun m attr k => if k = attr.Name.Local then some attr.Value else m k) m) k
      = match l.reverse.find? (fun a => a.Name.Local == k) with
        | some a => some a.Value
        | none => m k := by
  induction l generalizing m with
  | nil => simp
  | cons a rest ih =>
    simp only [List.foldl_cons, List.reverse_cons]
    rw [ih]
    rcases hfind : rest.reverse.find? (fun x => x.Name.Local == k) with _ | b
    · rw [List.find?_append, hfind]
      simp only [Option.none_orElse]
      by_cases hk : a.Name.Local = k
      · simp [List.find?, hk]
      · have hk2 : k ≠ a.Name.Local := fun h => hk h.symm
        have hb : (a.Name.Local == k) = false := by simp [hk]
        simp [List.find?, hb, hk2]
    · rw [List.find?_append, hfind]
      simp

/-- C1: for every well-formed SOAP envelope whose Body has no child
elements (text- or comment-only content, whitespace included),
`getBodyChildren` returns `ErrBodyElementEmpty` and no node sequence. -/
theorem getBodyChildren_noChildElements_emptyBody
    (rootName : XmlName) (rootAttrs : List XmlAttr)
    (rootChildren bc : List XmlContent)
    (hname : rootName.Local = "Envelope")
    (hbody : bodyContentOf rootChildren = some bc)
    (hnochild : ∀ c ∈ bc, c.isElem = false) :
    getBodyChildren (.doc rootName rootAttrs rootChildren) = .error .bodyElementEmpty := by
  have hdec : decodeNodes bc = [] := by
    rw [decodeNodes_eq_filter]
    have hf : bc.filter XmlContent.isElem = [] := by
      rw [List.filter_eq_nil_iff]
      intro c hc
      simp [hnochild c hc]
    rw [hf]
    rfl
  unfold getBodyChildren
  simp only [hname, hbody, Option.getD_some, ne_eq, not_true_eq_false, if_false, ite_false]
  split
  · rfl
  · simp [hdec]

/-- C1 witness: an envelope whose Body holds only whitespace fails with
`ErrBodyElementEmpty`. -/
theorem getBodyChildren_noChildElements_emptyBody_witness :
    getBodyChildren (RawInput.doc ⟨"s", "Envelope"⟩ []
      [XmlContent.elem ⟨"s", "Body"⟩ [] [XmlContent.text "\n  "]])
      = .error .bodyElementEmpty :=
  getBodyChildren_noChildElements_emptyBody ⟨"s", "Envelope"⟩ []
    [XmlContent.elem ⟨"s", "Body"⟩ [] [XmlContent.text "\n  "]]
    [XmlContent.text "\n  "] rfl rfl
    (by
      intro c hc
      rcases List.mem_singleton.mp hc with rfl
      rfl)

/-- C2 counterexample: a well-formed document whose root is an `Envelope`
with no `Body` child lacks the Envelope/Body structure, yet
`getBodyChildren` fails with `ErrBodyElementEmpty`, which is not in the
`MalformedDocument` class. -/
theorem getBodyChildren_missingBody_not_malformedDocument :
    getBodyChildren (RawInput.doc ⟨"", "Envelope"⟩ [] []) = .error .bodyElementEmpty
    ∧ GoXmlError.isMalformedDocument .bodyElementEmpty = false :=
  ⟨rfl, rfl⟩

/-- C2 (amended): bytes that are not well-formed XML, or whose root element
is not named `Envelope`, fail with the XML unmarshal error (the
`MalformedDocument` class); a well-formed `Envelope` document with no
`Body` child fails with `ErrBodyElementEmpty` instead. -/
theorem getBodyChildren_malformedDocument_cases :
    (∀ inp : RawInput,
      (inp = .malformed ∨ ∃ n a c, inp = .doc n a c ∧ n.Local ≠ "Envelope") →
      ∃ e, getBodyChildren inp = .error e ∧ e.isMalformedDocument = true)
    ∧ (∀ (n : XmlName) (a : List XmlAttr) (c : List XmlContent),
        n.Local = "Envelope" → bodyContentOf c = none →
        getBodyChildren (.doc n a c) = .error .bodyElementEmpty) := by
  constructor
  · intro inp h
    rcases h with rfl | ⟨n, a, c, rfl, hn⟩
    · exact ⟨.syntaxError, rfl, rfl⟩
    · refine ⟨.expectedEnvelope n.Local, ?_, rfl⟩
      simp [getBodyChildren, hn]
  · intro n a c hn hb
    simp [getBodyChildren, hn, hb, serializeList]

/-- C2 witness: malformed bytes and a non-`Envelope` root both land in the
`MalformedDocument` class, while an `Envelope` without a `Body` child gives
`ErrBodyElementEmpty`. -/
theorem getBodyChildren_malformedDocument_cases_witness :
    (∃ e, getBodyChildren .malformed = .error e ∧ e.isMalformedDocument = true)
    ∧ (∃ e, getBodyChildren (RawInput.doc ⟨"", "Other"⟩ [] []) = .error e
        ∧ e.isMalformedDocument = true)
    ∧ getBodyChildren (RawInput.doc ⟨"", "Envelope"⟩ [] [XmlContent.text "x"])
        = .error .bodyElementEmpty :=
  ⟨getBodyChildren_malformedDocument_cases.1 .malformed (Or.inl rfl),
   getBodyChildren_malformedDocument_cases.1 (RawInput.doc ⟨"", "Other"⟩ [] [])
     (Or.inr ⟨⟨"", "Other"⟩, [], [], rfl, by decide⟩),
   getBodyChildren_malformedDocument_cases.2 ⟨"", "Envelope"⟩ [] [XmlContent.text "x"]
     rfl rfl⟩

/-- C3: for every well-formed SOAP envelope whose Body has at least one
child element, `getBodyChildren` succeeds and returns one `Node` per direct
child element of the Body, in document order, each carrying that child's
name, attributes, and direct text content unchanged. -/
theorem getBodyChildren_nonEmptyBody_ok
    (rootName : XmlName) (rootAttrs : List XmlAttr)
    (rootChildren bc : List XmlContent)
    (hname : rootName.Local = "Envelope")
    (hbody : bodyContentOf rootChildren = some bc)
    (helem : ∃ c ∈ bc, c.isElem = true) :
    getBodyChildren (.doc rootName rootAttrs rootChildren)
      = .ok ((bc.filter XmlContent.isElem).map decodeElem)
    ∧ ((bc.filter XmlContent.isElem).map decodeElem).length
        = (bc.filter XmlContent.isElem).length
    ∧ ∀ c ∈ bc.filter XmlContent.isElem,
        (decodeElem c).XMLName = c.nameOf
        ∧ (decodeElem c).Attrs = c.attrsOf
        ∧ (decodeElem c).Content = directText c.childrenOf := by
  obtain ⟨c, hc, he⟩ := helem
  have hslen := serializeList_length_pos bc c hc he
  have hfne : (bc.filter XmlContent.isElem).length ≠ 0 := by
    have hmem : c ∈ bc.filter XmlContent.isElem := List.mem_filter.mpr ⟨hc, he⟩
    intro h0
    rw [List.length_eq_zero] at h0
    rw [h0] at hmem
    cases hmem
  refine ⟨?_, by simp, ?_⟩
  · unfold getBodyChildren
    simp only [hname, hbody, Option.getD_some, ne_eq, not_true_eq_false, if_false, ite_false]
    rw [decodeNodes_eq_filter]
    split
    · omega
    · simp [hfne]
  · intro c hc
    exact ⟨rfl, rfl, rfl⟩

/-- C3 witness: the fixture envelope with one `text` child yields exactly
that child's node. -/
theorem getBodyChildren_nonEmptyBody_ok_witness :
    getBodyChildren sampleEnvelope
      = .ok ((sampleBodyContent.filter XmlContent.isElem).map decodeElem) :=
  (getBodyChildren_nonEmptyBody_ok ⟨"s", "Envelope"⟩
    [⟨⟨"xmlns", "s"⟩, "http://schemas.xmlsoap.org/soap/envelope/"⟩]
    [ XmlContent.text "\n  ",
      XmlContent.elem ⟨"s", "Body"⟩ [] sampleBodyContent,
      XmlContent.text "\n" ]
    sampleBodyContent rfl rfl
    ⟨XmlContent.elem ⟨"", "text"⟩ [⟨⟨"", "align"⟩, "center"⟩]
        [XmlContent.text "Hello World"],
      List.mem_cons_of_mem _ (List.mem_cons_self _ _), rfl⟩).1

/-- C4: for every node, `Name` returns the local tag name (namespace prefix
stripped), and the `Attributes` map resolves each local attribute name to
the value of its last occurrence in the node's attribute list. -/
theorem node_name_attributes_spec (n : Node) (k : String) :
    n.Name = n.XMLName.Local
    ∧ n.Attributes k
        = (n.Attrs.reverse.find? (fun a => a.Name.Local == k)).map XmlAttr.Value := by
  refine ⟨rfl, ?_⟩
  unfold Node.Attributes
  rw [attributes_foldl_lookup]
  rcases h : n.Attrs.reverse.find? (fun a => a.Name.Local == k) with _ | b <;> rw [h] <;> rfl

/-- C5: `getBodyChildren` is deterministic — equal inputs give equal
results; the embedding is a total function over the input, matching the Go
code, which performs no I/O and never mutates its argument. -/
theorem getBodyChildren_deterministic (a b : RawInput) (h : a = b) :
    getBodyChildren a = getBodyChildren b := by rw [h]

/-- C5 witness: determinism applied at a concrete input. -/
theorem getBodyChildren_deterministic_witness :
    getBodyChildren .malformed = getBodyChildren .malformed :=
  getBodyChildren_deterministic .malformed .malformed rfl

/-- C6: every successfully processed job writes a stream beginning with the
init bytes `0x1B 0x40`, ending with the end-of-job marker `0xFA`, with all
other bytes strictly between them. -/
theorem process_output_bracketed (inp : RawInput) (nodes : List Node)
    (h : getBodyChildren inp = .ok nodes) :
    ∃ mid, (process inp).1 = 0x1B :: 0x40 :: (mid ++ [0xFA]) := by
  refine ⟨(processElements defaultState nodes).2.1, ?_⟩
  unfold process
  rw [h]
  simp [initBytes, endMarker]

/-- C6 witness: the fixture job's device stream is bracketed by init and
end-of-job marker. -/
theorem process_output_bracketed_witness :
    ∃ mid, (process sampleEnvelope).1 = 0x1B :: 0x40 :: (mid ++ [0xFA]) :=
  process_output_bracketed sampleEnvelope (decodeNodes sampleBodyContent) rfl

/-- C7: when envelope extraction fails, the adapter writes no bytes to the
device, and returns an HTTP 400 fault response whose fault string includes
"cannot parse XML". -/
theorem process_extraction_failure_fault (inp : RawInput) (e : GoXmlError)
    (h : getBodyChildren inp = .error e) :
    (process inp).1 = []
    ∧ (process inp).2.status = 400
    ∧ (process inp).2.success = false
    ∧ ∃ suffix, (process inp).2.body = "cannot parse XML" ++ suffix := by
  unfold process
  rw [h]
  exact ⟨rfl, rfl, rfl, ": malformed body", rfl⟩

/-- C7 witness: non-XML bytes produce an empty device stream and an HTTP
400 fault. -/
theorem process_extraction_failure_fault_witness :
    (process .malformed).1 = []
    ∧ (process .malformed).2.status = 400
    ∧ (process .malformed).2.success = false
    ∧ ∃ suffix, (process .malformed).2.body = "cannot parse XML" ++ suffix :=
  process_extraction_failure_fault .malformed .syntaxError rfl

/-- C8: for scales in 1..8 the character-size encoder produces the single
size byte `((width-1)<<4) | (height-1)`; outside that range it fails with
`InvalidParameter` and never clamps. -/
theorem sizeByte_spec (w h : Nat) :
    ((1 ≤ w ∧ w ≤ 8 ∧ 1 ≤ h ∧ h ≤ 8) →
      sizeByte w h = .ok (((w - 1) <<< 4) ||| (h - 1)))
    ∧ (¬(1 ≤ w ∧ w ≤ 8 ∧ 1 ≤ h ∧ h ≤ 8) →
      sizeByte w h = .error .invalidParameter) := by
  constructor <;> intro hc <;> simp [sizeByte, hc]

/-- C8 witness: scale 3×4 encodes to the specified byte; scale 9 fails
with `InvalidParameter`. -/
theorem sizeByte_spec_witness :
    sizeByte 3 4 = .ok (((3 - 1) <<< 4) ||| (4 - 1))
    ∧ sizeByte 9 1 = .error .invalidParameter :=
  ⟨(sizeByte_spec 3 4).1 (by decide), (sizeByte_spec 9 1).2 (by decide)⟩

/-- C9: an element that fails with an element-stage error is skipped — its
bytes are omitted, the state and bytes of the remaining elements are
exactly those obtained without it, the error is recorded — and any job
whose extraction succeeded still completes with a success response. -/
theorem element_errors_recoverable :
    (∀ (s : PrinterState) (n : Node) (err : ElemError) (rest : List Node),
      applyElement s n = .error err →
      (processElements s (n :: rest)).2.1 = (processElements s rest).2.1
      ∧ (processElements s (n :: rest)).1 = (processElements s rest).1
      ∧ (processElements s (n :: rest)).2.2 = err :: (processElements s rest).2.2)
    ∧ (∀ (inp : RawInput) (nodes : List Node),
        getBodyChildren inp = .ok nodes →
        (process inp).2.success = true ∧ (process inp).2.status = 200) := by
  constructor
  · intro s n err rest h
    simp [processElements, h]
  · intro inp nodes h
    unfold process
    rw [h]
    exact ⟨rfl, rfl⟩

/-- C9 witness: an unsupported `barcode` element is skipped and the
remaining `pulse` element is still processed; the fixture job reports
success. -/
theorem element_errors_recoverable_witness :
    ((processElements defaultState (unknownNode :: [pulseNode])).2.1
        = (processElements defaultState [pulseNode]).2.1
      ∧ (processElements defaultState (unknownNode :: [pulseNode])).1
        = (processElements defaultState [pulseNode]).1
      ∧ (processElements defaultState (unknownNode :: [pulseNode])).2.2
        = ElemError.unsupportedElement "barcode"
            :: (processElements defaultState [pulseNode]).2.2)
    ∧ ((process sampleEnvelope).2.success = true ∧ (process sampleEnvelope).2.status = 200) :=
  ⟨element_errors_recoverable.1 defaultState unknownNode
      (.unsupportedElement "barcode") [pulseNode] rfl,
   element_errors_recoverable.2 sampleEnvelope (decodeNodes sampleBodyContent) rfl⟩

/-- C10: whenever `getBodyChildren` returns without an error, the returned
node sequence is non-empty. -/
theorem getBodyChildren_ok_nonempty (inp : RawInput) (ns : List Node)
    (h : getBodyChildren inp = .ok ns) : ns ≠ [] := by
  cases inp with
  | malformed => simp [getBodyChildren] at h
  | doc n a ch =>
    unfold getBodyChildren at h
    by_cases h1 : n.Local = "Envelope"
    · simp only [h1, ne_eq, not_true_eq_false, if_false, ite_false] at h
      split at h
      · cases h
      · split at h
        · cases h
        · rename_i hlen
          cases h
          intro hnil
          rw [hnil] at hlen
          simp at hlen
    · simp [h1] at h

/-- C10 witness: the fixture envelope's extraction yields a non-empty node
list. -/
theorem getBodyChildren_ok_nonempty_witness :
    decodeNodes sampleBodyContent ≠ [] :=
  getBodyChildren_ok_nonempty sampleEnvelope (decodeNodes sampleBodyContent) rfl

end Escpos
